import Mathlib

/-!
Shallow embedding of `scripts/extract_epub_thumbnail.py` (EPUB thumbnail
extractor) and verification of its specification claims.

Modelling conventions:
* XML documents are modelled by the two queries the program performs on them:
  the list of container-namespace `rootfile` elements (their `full-path`
  attributes) and the list of OPF-namespace `meta`/`item` elements in document
  order.  Elements outside those namespaces are invisible to the program's
  namespaced XPath queries and hence absent from the model.
* Python attribute lookup `elem.get(a)` is an `Option String`; Python
  truthiness of a string (`if s:`) is `truthy`, treating `None` and `""` as
  falsy.
* `str(PurePosixPath(d) / h)` is embedded by `pathJoin` (posix `pathlib`
  collapses empty and `"."` segments; an absolute second operand resets the
  path); `Path(p).parent` by `pathParent`; `Path(p).suffix` by `pathSuffix`.
* CPython's `xml.etree` limited XPath rejects the `starts-with(...)`
  predicate and any predicate whose quoted literal is broken by an embedded
  double quote, raising `SyntaxError: invalid predicate` (a `SyntaxError`
  that is *not* an `ET.ParseError`).  Those raises are modelled explicitly.
* Pillow float arithmetic in `Image.thumbnail` is modelled with exact
  rationals.
-/

deriving instance DecidableEq for Except

namespace EpubThumb

/-- Python string truthiness for an optional attribute: `None` and the empty
string are falsy. -/
def truthy : Option String → Option String
  | none => none
  | some s => if s = "" then none else some s

/-- Character-list prefix test (pattern first). -/
def charsPre : List Char → List Char → Bool
  | [], _ => true
  | _ :: _, [] => false
  | p :: ps, c :: cs => p == c && charsPre ps cs

/-- Character-list contiguous-substring test (pattern first), the embedding of
Python's `pat in s`. -/
def charsSub : List Char → List Char → Bool
  | pat, [] => pat.isEmpty
  | pat, c :: cs => charsPre pat (c :: cs) || charsSub pat cs

/-- Python `pat in s` (contiguous substring). -/
def strContains (s pat : String) : Bool := charsSub pat.data s.data

/-- Python `s.startswith(pat)`. -/
def strStartsWith (s pat : String) : Bool := charsPre pat.data s.data

/-- Split a character list on a separator character (semantics of
`str.split(sep)` for a one-character separator: the empty input gives one
empty field). -/
def splitChar (sep : Char) : List Char → List (List Char)
  | [] => [[]]
  | c :: cs =>
    match splitChar sep cs with
    | [] => if c == sep then [[], []] else [[c]]
    | g :: gs => if c == sep then [] :: g :: gs else (c :: g) :: gs

/-- Split a string on a single character. -/
def strSplit (sep : Char) (s : String) : List String :=
  (splitChar sep s.data).map List.asString

/-- ASCII lowercasing, the embedding of `str.lower()` on the ASCII strings
the program compares. -/
def strLower (s : String) : String := (s.data.map Char.toLower).asString

/-- Interleave a separator string between fields. -/
def interStr (sep : String) : List String → String
  | [] => ""
  | [s] => s
  | s :: ss => s ++ sep ++ interStr sep ss

/-- Split a posix path into its components, collapsing empty and `"."`
segments as `pathlib.PurePosixPath` does. -/
def pathSegs (s : String) : List String :=
  (strSplit '/' s).filter fun c => !(c == "" || c == ".")

/-- Rebuild a `str(PurePosixPath ...)` from absoluteness and segments. -/
def pyPathOfSegs (abs : Bool) (segs : List String) : String :=
  if abs then "/" ++ interStr "/" segs
  else if segs.isEmpty then "." else interStr "/" segs

/-- Whether a posix path string is absolute. -/
def isAbs (s : String) : Bool := strStartsWith s "/"

/-- Embeds `str(PurePosixPath(d) / h)`: an absolute `h` resets the path, otherwise
the segment lists concatenate. -/
def pathJoin (d h : String) : String :=
  if isAbs h then pyPathOfSegs true (pathSegs h)
  else pyPathOfSegs (isAbs d) (pathSegs d ++ pathSegs h)

/-- Embeds `str(PurePosixPath(p).parent)`. -/
def pathParent (p : String) : String :=
  pyPathOfSegs (isAbs p) (pathSegs p).dropLast

/-- Embeds `PurePosixPath(name).suffix`: the part of `name` from its last dot,
nonempty only when that dot is neither the first nor the last character. -/
def pathSuffix (nm : String) : String :=
  let parts := strSplit '.' nm
  match parts with
  | [] => ""
  | [_] => ""
  | _ =>
    let lastP := parts.getLastD ""
    if lastP = "" then ""
    else if interStr "." parts.dropLast = "" then ""
    else "." ++ lastP

/-- Embeds `cover_path.replace('\\', '/')` — separator normalization before the
archive lookup. -/
def normalizeSeps (s : String) : String :=
  (s.data.map fun c => if c == '\\' then '/' else c).asString

/-- An OPF `<item>` element's attributes of interest. -/
structure ItemElem where
  id : Option String
  href : Option String
  mediaType : Option String
  properties : Option String
deriving DecidableEq

/-- An OPF `<meta>` element's attributes of interest. -/
structure MetaElem where
  name : Option String
  content : Option String
deriving DecidableEq

/-- One OPF-namespace element, in document order. -/
inductive OpfElem
  | item (it : ItemElem)
  | meta (m : MetaElem)
deriving DecidableEq

/-- Embeds `root.findall('.//opf:item', ns)`: the items in document order. -/
def opfItems : List OpfElem → List ItemElem
  | [] => []
  | .item it :: es => it :: opfItems es
  | .meta _ :: es => opfItems es

/-- Embeds `root.findall('.//opf:meta[@name="cover"]', ns)`. -/
def coverMetas : List OpfElem → List MetaElem
  | [] => []
  | .item _ :: es => coverMetas es
  | .meta m :: es => if m.name = some "cover" then m :: coverMetas es else coverMetas es

/-- Embeds `root.find('.//opf:item[@id="<cid>"]', ns)`: the first item whose `id`
attribute equals `cid`. -/
def findItemById (es : List OpfElem) (cid : String) : Option ItemElem :=
  (opfItems es).find? fun it => it.id = some cid

/-- One iteration of the Method-1 loop body for a single `meta` element:
`.ok none` means the loop falls through to the next meta; `.error ()` models
the `SyntaxError` raised when the id interpolated into the XPath f-string
contains a double quote. -/
def resolveCoverMeta (es : List OpfElem) (dir : String) (m : MetaElem) :
    Except Unit (Option String) :=
  match truthy m.content with
  | none => .ok none
  | some cid =>
    if strContains cid "\"" then .error ()
    else
      match findItemById es cid with
      | none => .ok none
      | some it =>
        match truthy it.href with
        | none => .ok none
        | some h => .ok (some (pathJoin dir h))

/-- Run an effectful candidate function over a list, returning the first
`some` result, propagating a raised exception. -/
def firstSomeE {α β : Type} : List α → (α → Except Unit (Option β)) → Except Unit (Option β)
  | [], _ => .ok none
  | a :: as, f =>
    match f a with
    | .error e => .error e
    | .ok (some b) => .ok (some b)
    | .ok none => firstSomeE as f

/-- Return the first `some` result of a pure candidate function. -/
def firstSome {α β : Type} : List α → (α → Option β) → Option β
  | [], _ => none
  | a :: as, f =>
    match f a with
    | some b => some b
    | none => firstSome as f

/-- Method 1: the loop over `meta[@name="cover"]` elements. -/
def method1 (es : List OpfElem) (dir : String) : Except Unit (Option String) :=
  firstSomeE (coverMetas es) (resolveCoverMeta es dir)

/-- Method 2: the loop over `item[@properties="cover-image"]` elements. -/
def method2 (es : List OpfElem) (dir : String) : Option String :=
  firstSome ((opfItems es).filter fun it => it.properties = some "cover-image")
    fun it => (truthy it.href).map (pathJoin dir)

/-- The Method-3 match condition: `('cover' in href.lower() or 'cover' in
id.lower()) and 'image' in media_type` (note: substring containment on the
media type, not a prefix test). -/
def method3Matches (it : ItemElem) : Bool :=
  (strContains (strLower (it.href.getD "")) "cover"
      || strContains (strLower (it.id.getD "")) "cover")
    && strContains (it.mediaType.getD "") "image"

/-- Method 3: first item matching `method3Matches`; returns
`str(opf_dir / item.get('href'))`.  A matching item without an `href`
attribute makes `opf_dir / None` raise `TypeError`, modelled as `.error`. -/
def method3 (es : List OpfElem) (dir : String) : Except Unit (Option String) :=
  match (opfItems es).find? method3Matches with
  | none => .ok none
  | some it =>
    match it.href with
    | none => .error ()
    | some h => .ok (some (pathJoin dir h))

/-- Result of `find_cover_image_in_opf`: a returned path, a returned `None`,
or an exception that escapes the function (only `ET.ParseError` is caught
inside it). -/
inductive FindResult
  | found (p : String)
  | noneFound
  | raisedError
deriving DecidableEq

/-- Embeds `find_cover_image_in_opf(opf_content, opf_dir)`.  The argument `parsed`
is the outcome of `ET.fromstring(opf_content)` (`none` = `ET.ParseError`,
which the function catches, warning and returning `None`).  Method 4's XPath
`.//opf:item[starts-with(@media-type, "image/")]` is an invalid predicate for
`xml.etree`, so reaching it always raises `SyntaxError`. -/
def find_cover_image_in_opf (parsed : Option (List OpfElem)) (dir : String) : FindResult :=
  match parsed with
  | none => .noneFound
  | some es =>
    match method1 es dir with
    | .error _ => .raisedError
    | .ok (some p) => .found p
    | .ok none =>
      match method2 es dir with
      | some p => .found p
      | none =>
        match method3 es dir with
        | .error _ => .raisedError
        | .ok (some p) => .found p
        | .ok none => .raisedError

/-- A decoded Pillow image, abstracted by the fields the program uses. -/
structure PILImage where
  mode : String
  width : Nat
  height : Nat
deriving DecidableEq

/-- Outcome of reading archive-entry bytes as text and parsing them as XML:
`decodeError` = `bytes.decode('utf-8')` raises, `parseError` =
`ET.fromstring` raises `ET.ParseError`, `doc` = a parsed document. -/
inductive TextParse
  | decodeError
  | parseError
  | doc (rootfiles : List (Option String)) (elems : List OpfElem)
deriving DecidableEq

/-- Archive-entry bytes, abstracted by the two ways the program consumes
them: as XML text (`asText`) and as image bytes (`asImage`; `none` =
`Image.open` raises). -/
structure EntryBytes where
  asText : TextParse
  asImage : Option PILImage
deriving DecidableEq

/-- The EPUB file as seen through `zipfile.ZipFile`: either a `BadZipFile`
raise, or a list of named entries. -/
inductive ZipFile
  | badZip
  | archive (entries : List (String × EntryBytes))
deriving DecidableEq

/-- Embeds `epub_zip.read(p)` as an `Option` (`none` = `KeyError`).  For duplicate
entry names `ZipFile.NameToInfo` keeps the last occurrence. -/
def zipRead (es : List (String × EntryBytes)) (p : String) : Option EntryBytes :=
  (es.reverse.find? fun e => e.fst = p).map Prod.snd

/-- Observable outcome of `extract_cover_from_epub`: the returned image (or
`None`), whether the conventional-path fallback loop was entered, whether the
`BadZipFile` diagnostic was printed, and the normalized manifest-resolved
path that was looked up in the archive (when one was). -/
structure ExtractTrace where
  result : Option PILImage
  triedFallback : Bool
  badArchiveReported : Bool
  coverLookup : Option String
deriving DecidableEq

/-- Trace of a failure swallowed by the function's generic
`except Exception` handler. -/
def genericFail : ExtractTrace :=
  { result := none, triedFallback := false, badArchiveReported := false, coverLookup := none }

/-- The ordered conventional cover locations probed by the fallback loop. -/
def commonPaths : List String :=
  ["cover.jpg", "cover.jpeg", "cover.png",
   "images/cover.jpg", "images/cover.jpeg", "images/cover.png",
   "OEBPS/cover.jpg", "OEBPS/cover.jpeg", "OEBPS/cover.png",
   "OEBPS/images/cover.jpg", "OEBPS/images/cover.jpeg", "OEBPS/images/cover.png"]

/-- The fallback loop over `commonPaths`: `some (some img)` = a present entry
decoded and returned; `some none` = a present entry failed to decode (the
raise escapes the loop's `except KeyError`); `none` = every path missing. -/
def probeFallback (es : List (String × EntryBytes)) : List String → Option (Option PILImage)
  | [] => none
  | p :: ps =>
    match zipRead es p with
    | none => probeFallback es ps
    | some e => some e.asImage

/-- Control flow of `extract_cover_from_epub` after the OPF entry has been
read and (perhaps) parsed (`parsed = none` = `ET.ParseError`, handled inside
`find_cover_image_in_opf`). -/
def afterOpf (es : List (String × EntryBytes)) (parsed : Option (List OpfElem))
    (dir : String) : ExtractTrace :=
  match find_cover_image_in_opf parsed dir with
  | .raisedError => genericFail
  | .noneFound =>
    match probeFallback es commonPaths with
    | some (some img) =>
      { result := some img, triedFallback := true, badArchiveReported := false,
        coverLookup := none }
    | some none =>
      { result := none, triedFallback := true, badArchiveReported := false,
        coverLookup := none }
    | none =>
      { result := none, triedFallback := true, badArchiveReported := false,
        coverLookup := none }
  | .found p =>
    let key := normalizeSeps p
    match zipRead es key with
    | none =>
      { result := none, triedFallback := false, badArchiveReported := false,
        coverLookup := some key }
    | some ie =>
      match ie.asImage with
      | none =>
        { result := none, triedFallback := false, badArchiveReported := false,
          coverLookup := some key }
      | some img =>
        { result := some img, triedFallback := false, badArchiveReported := false,
          coverLookup := some key }

/-- Embeds `extract_cover_from_epub(epub_path)`.  All raises other than the two
`KeyError`s handled inline are caught by `except zipfile.BadZipFile` /
`except Exception` at the bottom of the function. -/
def extract_cover_from_epub (zf : ZipFile) : ExtractTrace :=
  match zf with
  | .badZip =>
    { result := none, triedFallback := false, badArchiveReported := true, coverLookup := none }
  | .archive es =>
    match zipRead es "META-INF/container.xml" with
    | none => genericFail
    | some centry =>
      match centry.asText with
      | .decodeError => genericFail
      | .parseError => genericFail
      | .doc rootfiles _ =>
        match rootfiles.head? with
        | none => genericFail
        | some fpAttr =>
          match truthy fpAttr with
          | none => genericFail
          | some opfPath =>
            match zipRead es opfPath with
            | none => genericFail
            | some oentry =>
              match oentry.asText with
              | .decodeError => genericFail
              | .parseError => afterOpf es none (pathParent opfPath)
              | .doc _ elems => afterOpf es (some elems) (pathParent opfPath)

/-- Embeds `min(floor t, ceil t, key)` then `max(-, 1)`: the rounding used by
Pillow's `Image.thumbnail` to keep the aspect ratio (Python's two-argument
`min` with a key returns its first argument on ties). -/
def round_aspect (t : ℚ) (key : ℤ → ℚ) : ℤ :=
  max (if key ⌊t⌋ ≤ key ⌈t⌉ then ⌊t⌋ else ⌈t⌉) 1

/-- The size computed by Pillow's `Image.thumbnail((bw, bh))` for a `w × h`
image: unchanged when the image already fits, else scaled to the bounding
box preserving the aspect ratio.  `none` models the `ZeroDivisionError` of
`aspect = self.width / self.height` when `h = 0` and the image does not fit.
Python's float arithmetic is modelled with exact rationals. -/
def thumbnailSize (w h bw bh : Nat) : Option (Nat × Nat) :=
  if bw ≥ w ∧ bh ≥ h then some (w, h)
  else if h = 0 then none
  else if (bw : ℚ) / (bh : ℚ) ≥ (w : ℚ) / (h : ℚ) then
    some ((round_aspect ((bh : ℚ) * ((w : ℚ) / (h : ℚ)))
      fun n => |(w : ℚ) / (h : ℚ) - (n : ℚ) / (bh : ℚ)|).toNat, bh)
  else
    some (bw, (round_aspect ((bw : ℚ) / ((w : ℚ) / (h : ℚ)))
      fun n => if n = 0 then 0 else |(w : ℚ) / (h : ℚ) - (bw : ℚ) / (n : ℚ)|).toNat)

/-- The inputs `main` observes: `len(sys.argv)`, whether the input file
exists, its basename, its contents as a ZIP, and whether the target
thumbnail already exists. -/
structure MainInput where
  argc : Nat
  fileExists : Bool
  fileName : String
  zip : ZipFile
  thumbExists : Bool
deriving DecidableEq

/-- Observable outcome of `main`: the exit code (`none` = an uncaught
exception), the image written to the thumbnail path (`none` = no write), and
whether the `BadZipFile` diagnostic was printed. -/
structure MainResult where
  exitCode : Option Nat
  saved : Option PILImage
  badArchiveReported : Bool
deriving DecidableEq

/-- Lines 165–167 of `main`: `if cover_image.mode not in ('RGB', 'RGBA'):
cover_image = cover_image.convert('RGB')` (a mode conversion keeps the
pixel dimensions). -/
def convertIfNeeded (img : PILImage) : PILImage :=
  if img.mode = "RGB" ∨ img.mode = "RGBA" then img else { img with mode := "RGB" }

/-- The tail of `main` after the argument/existence/extension checks: cover
extraction result handling, the already-exists skip, color-mode
normalization, resize, save. -/
def mainAfterChecks (t : ExtractTrace) (thumbEx : Bool) : MainResult :=
  match t.result with
  | none => { exitCode := some 1, saved := none, badArchiveReported := t.badArchiveReported }
  | some img =>
    if thumbEx then
      { exitCode := some 0, saved := none, badArchiveReported := t.badArchiveReported }
    else
      match thumbnailSize (convertIfNeeded img).width (convertIfNeeded img).height 122 150 with
      | none => { exitCode := none, saved := none, badArchiveReported := t.badArchiveReported }
      | some (w, h) =>
        { exitCode := some 0,
          saved := some { mode := (convertIfNeeded img).mode, width := w, height := h },
          badArchiveReported := t.badArchiveReported }

/-- Embeds `main()`: argument/extension/existence checks, then the
extract/skip/convert/resize/save tail.  Falling off the end of `main` is
exit code 0. -/
def mainRun (inp : MainInput) : MainResult :=
  if inp.argc ≠ 2 then { exitCode := some 1, saved := none, badArchiveReported := false }
  else if !inp.fileExists then { exitCode := some 1, saved := none, badArchiveReported := false }
  else if strLower (pathSuffix inp.fileName) ≠ ".epub" then
    { exitCode := some 1, saved := none, badArchiveReported := false }
  else mainAfterChecks (extract_cover_from_epub inp.zip) inp.thumbExists

/-- Modelled from the spec (claim C4's reading of heuristic 1, which is not
in the source): a resolver that consults only the *first*
`meta[name="cover"]` element and, when that element does not lead to a
returned href, moves on to the next heuristic instead of a later meta. -/
def findCoverFirstMetaOnly (parsed : Option (List OpfElem)) (dir : String) : FindResult :=
  match parsed with
  | none => .noneFound
  | some es =>
    let m1 : Except Unit (Option String) :=
      match (coverMetas es).head? with
      | none => .ok none
      | some m => resolveCoverMeta es dir m
    match m1 with
    | .error _ => .raisedError
    | .ok (some p) => .found p
    | .ok none =>
      match method2 es dir with
      | some p => .found p
      | none =>
        match method3 es dir with
        | .error _ => .raisedError
        | .ok (some p) => .found p
        | .ok none => .raisedError

section Helpers

/-- A prefix of a character list is also a contiguous substring of it. -/
theorem charsPre_charsSub (pat s : List Char) (h : charsPre pat s = true) :
    charsSub pat s = true := by
  cases s with
  | nil =>
    cases pat with
    | nil => rfl
    | cons p ps => simp [charsPre] at h
  | cons c cs => simp [charsSub, h]

/-- Skipping an all-failing prefix of the candidate list. -/
theorem firstSomeE_skip {α β : Type} (f : α → Except Unit (Option β)) :
    ∀ (pre l : List α), (∀ x ∈ pre, f x = .ok none) →
      firstSomeE (pre ++ l) f = firstSomeE l f := by
  intro pre
  induction pre with
  | nil => intro l _; rfl
  | cons a as ih =>
    intro l h
    have ha : f a = .ok none := h a (List.mem_cons_self a as)
    have hs : ∀ x ∈ as, f x = .ok none := fun x hx => h x (List.mem_cons_of_mem a hx)
    simp only [List.cons_append, firstSomeE, ha]
    exact ih l hs

/-- Whenever the manifest heuristics resolve a path, the archive lookup key
is the separator-normalized resolved path. -/
theorem afterOpf_coverLookup (es : List (String × EntryBytes))
    (parsed : Option (List OpfElem)) (dir p : String)
    (h : find_cover_image_in_opf parsed dir = .found p) :
    (afterOpf es parsed dir).coverLookup = some (normalizeSeps p) := by
  unfold afterOpf
  rw [h]
  cases hz : zipRead es (normalizeSeps p) with
  | none => simp [hz]
  | some ie => cases hi : ie.asImage <;> simp [hz, hi]

/-- The fallback loop runs only when `find_cover_image_in_opf` returned
`None`. -/
theorem afterOpf_fallback_only_when_none (es : List (String × EntryBytes))
    (parsed : Option (List OpfElem)) (dir : String)
    (h : (afterOpf es parsed dir).triedFallback = true) :
    find_cover_image_in_opf parsed dir = .noneFound := by
  cases hf : find_cover_image_in_opf parsed dir with
  | noneFound => rfl
  | raisedError =>
    unfold afterOpf at h
    rw [hf] at h
    simp [genericFail] at h
  | found p =>
    unfold afterOpf at h
    rw [hf] at h
    cases hz : zipRead es (normalizeSeps p) with
    | none => simp [hz] at h
    | some ie => cases hi : ie.asImage <;> simp [hz, hi] at h

end Helpers

/-- Claim C1 (code_bug evidence): for a manifest with no cover hints whose
only item is image-typed (`pic.jpg`, `image/jpeg`) — so heuristic 4 should
return it — the resolver instead raises (`xml.etree` rejects Method 4's
`starts-with` XPath predicate with `SyntaxError: invalid predicate`), and the
whole run fails with exit code 1 even though the image entry exists and
decodes. -/
theorem claim1_method4_raises :
    find_cover_image_in_opf
        (some [.item ⟨some "img1", some "pic.jpg", some "image/jpeg", none⟩]) "OEBPS"
      = .raisedError
    ∧ mainRun
        { argc := 2, fileExists := true, fileName := "novel.epub",
          zip := .archive
            [("META-INF/container.xml", ⟨.doc [some "OEBPS/content.opf"] [], none⟩),
             ("OEBPS/content.opf",
               ⟨.doc [] [.item ⟨some "img1", some "pic.jpg", some "image/jpeg", none⟩], none⟩),
             ("OEBPS/pic.jpg", ⟨.parseError, some ⟨"RGB", 244, 300⟩⟩)],
          thumbExists := false }
      = { exitCode := some 1, saved := none, badArchiveReported := false } := by
  constructor <;> decide

/-- Claim C2 (code_bug evidence): for an EPUB with an empty manifest the
fallback probe is never entered (`triedFallback = false`): Method 4's
invalid-predicate `SyntaxError` escapes `find_cover_image_in_opf` into the
generic handler of `extract_cover_from_epub` before the conventional-path
loop is reached.  The run exits 1 even when a conventional path (`cover.jpg`)
is present and decodable, and also (second conjunct) when none is present. -/
theorem claim2_fallback_unreachable :
    extract_cover_from_epub
        (.archive
          [("META-INF/container.xml", ⟨.doc [some "content.opf"] [], none⟩),
           ("content.opf", ⟨.doc [] [], none⟩),
           ("cover.jpg", ⟨.parseError, some ⟨"RGB", 244, 300⟩⟩)])
      = { result := none, triedFallback := false, badArchiveReported := false,
          coverLookup := none }
    ∧ mainRun
        { argc := 2, fileExists := true, fileName := "novel.epub",
          zip := .archive
            [("META-INF/container.xml", ⟨.doc [some "content.opf"] [], none⟩),
             ("content.opf", ⟨.doc [] [], none⟩),
             ("cover.jpg", ⟨.parseError, some ⟨"RGB", 244, 300⟩⟩)],
          thumbExists := false }
      = { exitCode := some 1, saved := none, badArchiveReported := false }
    ∧ mainRun
        { argc := 2, fileExists := true, fileName := "novel.epub",
          zip := .archive
            [("META-INF/container.xml", ⟨.doc [some "content.opf"] [], none⟩),
             ("content.opf", ⟨.doc [] [], none⟩)],
          thumbExists := false }
      = { exitCode := some 1, saved := none, badArchiveReported := false } := by
  refine ⟨by decide, by decide, by decide⟩

/-- Claim C3 counterexample: heuristic 3 selects an item whose media-type
merely *contains* `"image"` — here `"text/imagery"`, which does not start
with `"image"` — refuting "it selects an item only if its media-type starts
with image". -/
theorem claim3_counterexample :
    find_cover_image_in_opf
        (some [.item ⟨some "cover", some "notes.txt", some "text/imagery", none⟩]) "OEBPS"
      = .found "OEBPS/notes.txt"
    ∧ strStartsWith "text/imagery" "image" = false := by
  constructor <;> decide

/-- Claim C3 as amended: heuristic 3 (when heuristics 1 and 2 yield nothing)
returns the directory-joined href of the first item in document order whose
lowercased href or id contains "cover" and whose media-type *contains* the
substring "image"; every item whose media-type starts with "image" satisfies
that media-type test, but items whose media-type merely contains "image"
also qualify. -/
theorem claim3_amended :
    (∀ (es : List OpfElem) (dir : String) (it : ItemElem) (h : String),
      method1 es dir = .ok none →
      method2 es dir = none →
      (opfItems es).find? method3Matches = some it →
      it.href = some h →
      find_cover_image_in_opf (some es) dir = .found (pathJoin dir h))
    ∧ (∀ it : ItemElem,
        (strContains (strLower (it.href.getD "")) "cover"
          || strContains (strLower (it.id.getD "")) "cover") = true →
        strStartsWith (it.mediaType.getD "") "image" = true →
        method3Matches it = true) := by
  constructor
  · intro es dir it h h1 h2 h3 h4
    have h3' : method3 es dir = .ok (some (pathJoin dir h)) := by
      simp only [method3, h3, h4]
    simp only [find_cover_image_in_opf, h1, h2, h3']
  · intro it hcov hpre
    unfold method3Matches
    rw [hcov, Bool.true_and]
    exact charsPre_charsSub _ _ hpre

/-- Claim C3 amended, witness: a non-matching first item is skipped and the
first matching item's href is returned. -/
theorem claim3_amended_witness :
    find_cover_image_in_opf
        (some [.item ⟨some "x", some "front.txt", some "text/css", none⟩,
               .item ⟨some "cover1", some "cover.jpg", some "image/jpeg", none⟩]) "OEBPS"
      = .found (pathJoin "OEBPS" "cover.jpg")
    ∧ pathJoin "OEBPS" "cover.jpg" = "OEBPS/cover.jpg" :=
  ⟨claim3_amended.1 _ "OEBPS" ⟨some "cover1", some "cover.jpg", some "image/jpeg", none⟩
      "cover.jpg" (by decide) (by decide) (by decide) rfl,
   by decide⟩

/-- Claim C4 counterexample: the first `meta[name="cover"]` fails to resolve
(no item with id "missing"), yet the resolver consults the second meta and
returns the href it designates; a spec-modelled resolver that consults only
the first meta would instead fall through (and raise at Method 4). -/
theorem claim4_counterexample :
    find_cover_image_in_opf
        (some [.meta ⟨some "cover", some "missing"⟩,
               .meta ⟨some "cover", some "c2"⟩,
               .item ⟨some "c2", some "art.jpg", some "text/css", none⟩]) "OEBPS"
      = .found "OEBPS/art.jpg"
    ∧ resolveCoverMeta
        [.meta ⟨some "cover", some "missing"⟩,
         .meta ⟨some "cover", some "c2"⟩,
         .item ⟨some "c2", some "art.jpg", some "text/css", none⟩] "OEBPS"
        ⟨some "cover", some "missing"⟩ = .ok none
    ∧ findCoverFirstMetaOnly
        (some [.meta ⟨some "cover", some "missing"⟩,
               .meta ⟨some "cover", some "c2"⟩,
               .item ⟨some "c2", some "art.jpg", some "text/css", none⟩]) "OEBPS"
      = .raisedError := by
  refine ⟨by decide, by decide, by decide⟩

/-- Claim C4 as amended: within heuristic 1 the `meta[name="cover"]`
elements are scanned in document order and a meta that fails to yield an
href (missing/empty content, no item with that id, or an item without a
nonempty href) is skipped — later metas ARE consulted; the first meta that
resolves determines the result. -/
theorem claim4_amended (es : List OpfElem) (dir : String)
    (pre post : List MetaElem) (m : MetaElem) (p : String)
    (hsplit : coverMetas es = pre ++ m :: post)
    (hpre : ∀ m' ∈ pre, resolveCoverMeta es dir m' = .ok none)
    (hm : resolveCoverMeta es dir m = .ok (some p)) :
    find_cover_image_in_opf (some es) dir = .found p := by
  have h1 : method1 es dir = .ok (some p) := by
    unfold method1
    rw [hsplit, firstSomeE_skip _ pre _ hpre]
    simp only [firstSomeE, hm]
  simp only [find_cover_image_in_opf, h1]

/-- Claim C4 amended, witness: the first meta fails, the second resolves. -/
theorem claim4_amended_witness :
    resolveCoverMeta
        [.meta ⟨some "cover", some "bad"⟩,
         .meta ⟨some "cover", some "c1"⟩,
         .item ⟨some "c1", some "cov.png", some "image/png", none⟩] "OEBPS"
        ⟨some "cover", some "bad"⟩ = .ok none
    ∧ find_cover_image_in_opf
        (some [.meta ⟨some "cover", some "bad"⟩,
               .meta ⟨some "cover", some "c1"⟩,
               .item ⟨some "c1", some "cov.png", some "image/png", none⟩]) "OEBPS"
      = .found "OEBPS/cov.png" :=
  ⟨by decide,
   claim4_amended _ "OEBPS" [⟨some "cover", some "bad"⟩] [] ⟨some "cover", some "c1"⟩
     "OEBPS/cov.png" (by decide) (by decide) (by decide)⟩

/-- Claim C5: when the first `meta[name="cover"]` names (quote-free,
nonempty content) an item present in the manifest with a nonempty href, the
resolver returns exactly that href joined to the OPF parent directory; and
whenever the heuristics resolve a path, the archive lookup key is that path
with backslashes normalized to forward slashes. -/
theorem claim5_meta_cover_resolution :
    (∀ (es : List OpfElem) (dir : String) (m : MetaElem) (rest : List MetaElem)
       (cid : String) (it : ItemElem) (h : String),
      coverMetas es = m :: rest →
      m.content = some cid → cid ≠ "" → strContains cid "\"" = false →
      findItemById es cid = some it →
      it.href = some h → h ≠ "" →
      find_cover_image_in_opf (some es) dir = .found (pathJoin dir h))
    ∧ (∀ (es : List (String × EntryBytes)) (parsed : Option (List OpfElem)) (dir p : String),
        find_cover_image_in_opf parsed dir = .found p →
        (afterOpf es parsed dir).coverLookup = some (normalizeSeps p)) := by
  constructor
  · intro es dir m rest cid it h hm hc hcne hq hfi hh hhne
    have hres : resolveCoverMeta es dir m = .ok (some (pathJoin dir h)) := by
      unfold resolveCoverMeta
      rw [hc]
      simp only [truthy, if_neg hcne, hq, Bool.false_eq_true, if_false, hfi, hh,
        if_neg hhne]
    have h1 : method1 es dir = .ok (some (pathJoin dir h)) := by
      unfold method1
      rw [hm]
      simp only [firstSomeE, hres]
    simp only [find_cover_image_in_opf, h1]
  · exact afterOpf_coverLookup

/-- Claim C5 witness: the spec's own example — OPF at `OEBPS/content.opf`,
item href `images/cover.jpg` designated by the cover meta — resolves to
`OEBPS/images/cover.jpg`, which is also the archive lookup key. -/
theorem claim5_witness :
    find_cover_image_in_opf
        (some [.meta ⟨some "cover", some "cover-img"⟩,
               .item ⟨some "cover-img", some "images/cover.jpg", some "image/jpeg", none⟩])
        (pathParent "OEBPS/content.opf")
      = .found (pathJoin (pathParent "OEBPS/content.opf") "images/cover.jpg")
    ∧ pathJoin (pathParent "OEBPS/content.opf") "images/cover.jpg" = "OEBPS/images/cover.jpg"
    ∧ (afterOpf []
        (some [.meta ⟨some "cover", some "cover-img"⟩,
               .item ⟨some "cover-img", some "images/cover.jpg", some "image/jpeg", none⟩])
        (pathParent "OEBPS/content.opf")).coverLookup
      = some (normalizeSeps (pathJoin (pathParent "OEBPS/content.opf") "images/cover.jpg")) :=
  ⟨claim5_meta_cover_resolution.1 _ _ ⟨some "cover", some "cover-img"⟩ []
      "cover-img" ⟨some "cover-img", some "images/cover.jpg", some "image/jpeg", none⟩
      "images/cover.jpg" (by decide) rfl (by decide) (by decide) (by decide) rfl (by decide),
   by decide,
   claim5_meta_cover_resolution.2 _ _ _ _
     (claim5_meta_cover_resolution.1 _ _ ⟨some "cover", some "cover-img"⟩ []
       "cover-img" ⟨some "cover-img", some "images/cover.jpg", some "image/jpeg", none⟩
       "images/cover.jpg" (by decide) rfl (by decide) (by decide) (by decide) rfl (by decide))⟩

/-- Claim C6 counterexample: a structurally valid EPUB (container plus OPF
with an empty manifest) whose target thumbnail already exists still exits
with code 1, because the existence check only happens after a successful
cover extraction. -/
theorem claim6_counterexample :
    (mainRun
        { argc := 2, fileExists := true, fileName := "b.epub",
          zip := .archive
            [("META-INF/container.xml", ⟨.doc [some "content.opf"] [], none⟩),
             ("content.opf", ⟨.doc [] [], none⟩)],
          thumbExists := true }).exitCode = some 1 := by decide

/-- Claim C6 as amended: for every input EPUB whose cover extraction
succeeds and whose target thumbnail already exists, the run exits with code
0 and writes nothing — hence a second run after a successful first run is a
no-op success. -/
theorem claim6_amended (inp : MainInput) (img : PILImage)
    (h1 : inp.argc = 2) (h2 : inp.fileExists = true)
    (h3 : strLower (pathSuffix inp.fileName) = ".epub")
    (h4 : (extract_cover_from_epub inp.zip).result = some img)
    (h5 : inp.thumbExists = true) :
    (mainRun inp).exitCode = some 0 ∧ (mainRun inp).saved = none := by
  simp [mainRun, mainAfterChecks, h1, h2, h3, h4, h5]

/-- Claim C6 amended, witness: a well-formed EPUB whose thumbnail exists
skips with exit code 0 and no write. -/
theorem claim6_amended_witness :
    (extract_cover_from_epub (.archive
        [("META-INF/container.xml", ⟨.doc [some "OEBPS/content.opf"] [], none⟩),
         ("OEBPS/content.opf",
           ⟨.doc [] [.meta ⟨some "cover", some "c1"⟩,
                     .item ⟨some "c1", some "cover.jpg", some "image/jpeg", none⟩], none⟩),
         ("OEBPS/cover.jpg", ⟨.parseError, some ⟨"RGB", 244, 300⟩⟩)])).result
      = some ⟨"RGB", 244, 300⟩
    ∧ (mainRun
        { argc := 2, fileExists := true, fileName := "novel.epub",
          zip := .archive
            [("META-INF/container.xml", ⟨.doc [some "OEBPS/content.opf"] [], none⟩),
             ("OEBPS/content.opf",
               ⟨.doc [] [.meta ⟨some "cover", some "c1"⟩,
                         .item ⟨some "c1", some "cover.jpg", some "image/jpeg", none⟩], none⟩),
             ("OEBPS/cover.jpg", ⟨.parseError, some ⟨"RGB", 244, 300⟩⟩)],
          thumbExists := true }).exitCode = some 0
    ∧ (mainRun
        { argc := 2, fileExists := true, fileName := "novel.epub",
          zip := .archive
            [("META-INF/container.xml", ⟨.doc [some "OEBPS/content.opf"] [], none⟩),
             ("OEBPS/content.opf",
               ⟨.doc [] [.meta ⟨some "cover", some "c1"⟩,
                         .item ⟨some "c1", some "cover.jpg", some "image/jpeg", none⟩], none⟩),
             ("OEBPS/cover.jpg", ⟨.parseError, some ⟨"RGB", 244, 300⟩⟩)],
          thumbExists := true }).saved = none :=
  ⟨by decide,
   (claim6_amended _ ⟨"RGB", 244, 300⟩ rfl rfl (by decide) (by decide) rfl).1,
   (claim6_amended _ ⟨"RGB", 244, 300⟩ rfl rfl (by decide) (by decide) rfl).2⟩

/-- Claim C9: an existing `.epub` file that is not a valid ZIP archive makes
`zipfile.ZipFile` raise `BadZipFile`, which is caught and reported; the run
exits with code 1 and no exception escapes (the model returns an exit code,
not a crash). -/
theorem claim9_bad_zip (inp : MainInput)
    (h1 : inp.argc = 2) (h2 : inp.fileExists = true)
    (h3 : strLower (pathSuffix inp.fileName) = ".epub")
    (h4 : inp.zip = .badZip) :
    mainRun inp = { exitCode := some 1, saved := none, badArchiveReported := true } := by
  simp [mainRun, mainAfterChecks, h1, h2, h3, h4, extract_cover_from_epub]

/-- Claim C9 witness. -/
theorem claim9_witness :
    mainRun { argc := 2, fileExists := true, fileName := "Book.epub", zip := .badZip,
              thumbExists := false }
      = { exitCode := some 1, saved := none, badArchiveReported := true } :=
  claim9_bad_zip _ rfl rfl (by decide) rfl

/-- Claim C10: when the manifest heuristics resolve a cover path whose
normalized form is not an archive entry, extraction fails without entering
the fallback loop and the run exits with code 1; and the fallback loop runs
only when the manifest yielded no path at all. -/
theorem claim10_no_fallback_after_resolve :
    (∀ (es : List (String × EntryBytes)) (centry oentry : EntryBytes)
       (rfs orfs : List (Option String)) (celems oelems : List OpfElem)
       (opfPath p nm : String) (te : Bool),
      zipRead es "META-INF/container.xml" = some centry →
      centry.asText = .doc rfs celems →
      rfs.head? = some (some opfPath) →
      opfPath ≠ "" →
      zipRead es opfPath = some oentry →
      oentry.asText = .doc orfs oelems →
      find_cover_image_in_opf (some oelems) (pathParent opfPath) = .found p →
      zipRead es (normalizeSeps p) = none →
      strLower (pathSuffix nm) = ".epub" →
      extract_cover_from_epub (.archive es)
        = { result := none, triedFallback := false, badArchiveReported := false,
            coverLookup := some (normalizeSeps p) }
      ∧ mainRun { argc := 2, fileExists := true, fileName := nm, zip := .archive es,
                  thumbExists := te }
        = { exitCode := some 1, saved := none, badArchiveReported := false })
    ∧ (∀ (es : List (String × EntryBytes)) (parsed : Option (List OpfElem)) (dir : String),
        (afterOpf es parsed dir).triedFallback = true →
        find_cover_image_in_opf parsed dir = .noneFound) := by
  constructor
  · intro es centry oentry rfs orfs celems oelems opfPath p nm te
      hc hct hhead hne ho hot hf hz hsuf
    have hex : extract_cover_from_epub (.archive es)
        = { result := none, triedFallback := false, badArchiveReported := false,
            coverLookup := some (normalizeSeps p) } := by
      have h1 : extract_cover_from_epub (.archive es)
          = afterOpf es (some oelems) (pathParent opfPath) := by
        simp only [extract_cover_from_epub, hc, hct, hhead, truthy, if_neg hne, ho, hot]
      rw [h1]
      unfold afterOpf
      rw [hf]
      simp [hz]
    refine ⟨hex, ?_⟩
    simp [mainRun, mainAfterChecks, hsuf, hex]
  · exact afterOpf_fallback_only_when_none

/-- Claim C10 witness: a resolved href with a backslash separator is
normalized for lookup, found missing, and the run fails without fallback. -/
theorem claim10_witness :
    extract_cover_from_epub (.archive
        [("META-INF/container.xml", ⟨.doc [some "OEBPS/content.opf"] [], none⟩),
         ("OEBPS/content.opf",
           ⟨.doc [] [.meta ⟨some "cover", some "c1"⟩,
                     .item ⟨some "c1", some "images\\cover.jpg", some "image/jpeg", none⟩],
            none⟩)])
      = { result := none, triedFallback := false, badArchiveReported := false,
          coverLookup := some (normalizeSeps "OEBPS/images\\cover.jpg") }
    ∧ normalizeSeps "OEBPS/images\\cover.jpg" = "OEBPS/images/cover.jpg"
    ∧ mainRun
        { argc := 2, fileExists := true, fileName := "b.epub",
          zip := .archive
            [("META-INF/container.xml", ⟨.doc [some "OEBPS/content.opf"] [], none⟩),
             ("OEBPS/content.opf",
               ⟨.doc [] [.meta ⟨some "cover", some "c1"⟩,
                         .item ⟨some "c1", some "images\\cover.jpg", some "image/jpeg", none⟩],
                none⟩)],
          thumbExists := false }
      = { exitCode := some 1, saved := none, badArchiveReported := false } :=
  ⟨(claim10_no_fallback_after_resolve.1
      [("META-INF/container.xml", ⟨.doc [some "OEBPS/content.opf"] [], none⟩),
       ("OEBPS/content.opf",
         ⟨.doc [] [.meta ⟨some "cover", some "c1"⟩,
                   .item ⟨some "c1", some "images\\cover.jpg", some "image/jpeg", none⟩],
          none⟩)]
      ⟨.doc [some "OEBPS/content.opf"] [], none⟩
      ⟨.doc [] [.meta ⟨some "cover", some "c1"⟩,
                .item ⟨some "c1", some "images\\cover.jpg", some "image/jpeg", none⟩], none⟩
      [some "OEBPS/content.opf"] [] []
      [.meta ⟨some "cover", some "c1"⟩,
       .item ⟨some "c1", some "images\\cover.jpg", some "image/jpeg", none⟩]
      "OEBPS/content.opf" "OEBPS/images\\cover.jpg" "b.epub" false
      (by decide) rfl (by decide) (by decide) (by decide) rfl (by decide) (by decide)
      (by decide)).1,
   by decide,
   (claim10_no_fallback_after_resolve.1
      [("META-INF/container.xml", ⟨.doc [some "OEBPS/content.opf"] [], none⟩),
       ("OEBPS/content.opf",
         ⟨.doc [] [.meta ⟨some "cover", some "c1"⟩,
                   .item ⟨some "c1", some "images\\cover.jpg", some "image/jpeg", none⟩],
          none⟩)]
      ⟨.doc [some "OEBPS/content.opf"] [], none⟩
      ⟨.doc [] [.meta ⟨some "cover", some "c1"⟩,
                .item ⟨some "c1", some "images\\cover.jpg", some "image/jpeg", none⟩], none⟩
      [some "OEBPS/content.opf"] [] []
      [.meta ⟨some "cover", some "c1"⟩,
       .item ⟨some "c1", some "images\\cover.jpg", some "image/jpeg", none⟩]
      "OEBPS/content.opf" "OEBPS/images\\cover.jpg" "b.epub" false
      (by decide) rfl (by decide) (by decide) (by decide) rfl (by decide) (by decide)
      (by decide)).2⟩

section ResizeLemmas

/-- The aspect rounding never returns less than 1. -/
theorem one_le_round_aspect (t : ℚ) (key : ℤ → ℚ) : 1 ≤ round_aspect t key :=
  le_max_right _ _

/-- The aspect rounding respects any integer upper bound on `t` that is at
least 1. -/
theorem round_aspect_le (t : ℚ) (key : ℤ → ℚ) (B : ℤ) (hB : 1 ≤ B)
    (ht : t ≤ (B : ℚ)) : round_aspect t key ≤ B := by
  have hceil : ⌈t⌉ ≤ B := Int.ceil_le.mpr ht
  have hfloor : ⌊t⌋ ≤ B := le_trans (Int.floor_le_ceil t) hceil
  unfold round_aspect
  split
  · exact max_le hfloor hB
  · exact max_le hceil hB

/-- The aspect rounding moves a positive target by at most one. -/
theorem round_aspect_close (t : ℚ) (key : ℤ → ℚ) (ht : 0 < t) :
    |((round_aspect t key : ℤ) : ℚ) - t| ≤ 1 := by
  have hfl : |((⌊t⌋ : ℤ) : ℚ) - t| ≤ 1 := by
    rw [abs_le]
    constructor
    · linarith [Int.lt_floor_add_one t]
    · linarith [Int.floor_le t]
  have hcl1 : 1 ≤ ⌈t⌉ := Int.ceil_pos.mpr ht
  unfold round_aspect
  split
  · rcases le_or_lt 1 ⌊t⌋ with hge | hlt
    · rw [max_eq_left hge]
      exact hfl
    · rw [max_eq_right hlt.le]
      have h0 : ⌊t⌋ ≤ 0 := by omega
      have ht1 : t < 1 := by
        have h2 := Int.lt_floor_add_one t
        have h3 : ((⌊t⌋ : ℤ) : ℚ) ≤ 0 := by exact_mod_cast h0
        linarith
      rw [abs_le]
      push_cast
      constructor <;> linarith
  · rw [max_eq_left hcl1]
    rw [abs_le]
    constructor
    · linarith [Int.le_ceil t]
    · linarith [Int.ceil_lt_add_one t]

/-- The resize invariant of `Image.thumbnail((122, 150))`: the output fits
the box, never exceeds the source dimensions, and the cross-multiplied
aspect-ratio error is at most one pixel's worth of the larger source
dimension. -/
theorem thumbnailSize_spec (w h w2 h2 : ℕ) (hw : 0 < w) (hh : 0 < h)
    (hts : thumbnailSize w h 122 150 = some (w2, h2)) :
    w2 ≤ 122 ∧ h2 ≤ 150 ∧ w2 ≤ w ∧ h2 ≤ h
      ∧ |(w2 : ℤ) * h - (h2 : ℤ) * w| ≤ (max w h : ℤ) := by
  have hwq : (0 : ℚ) < w := by exact_mod_cast hw
  have hhq : (0 : ℚ) < h := by exact_mod_cast hh
  unfold thumbnailSize at hts
  split at hts
  · rename_i hfit
    rw [Option.some_inj, Prod.mk.injEq] at hts
    obtain ⟨rfl, rfl⟩ := hts
    refine ⟨hfit.1, hfit.2, le_refl _, le_refl _, ?_⟩
    rw [mul_comm]
    simp
  · rename_i hnofit
    split at hts
    · simp at hts
    · rename_i hh0
      split at hts
      · -- width-constrained branch: output height is exactly 150
        rename_i hrat
        rw [Option.some_inj, Prod.mk.injEq] at hts
        obtain ⟨hw2, hh2⟩ := hts
        subst hw2
        subst hh2
        push_cast at hrat ⊢
        rw [ge_iff_le, div_le_div_iff hhq (by norm_num : (0 : ℚ) < 150)] at hrat
        -- hrat : w * 150 ≤ 122 * h
        have ht122 : (150 : ℚ) * ((w : ℚ) / h) ≤ 122 := by
          rw [← mul_div_assoc, div_le_iff hhq]
          linarith
        have hh150 : 150 < h := by
          by_contra hcon
          push_neg at hcon
          have hcq : (h : ℚ) ≤ 150 := by exact_mod_cast hcon
          have hwle : w ≤ 122 := by
            have : (w : ℚ) ≤ 122 := by nlinarith
            exact_mod_cast this
          exact hnofit ⟨hwle, hcon⟩
        have htw : (150 : ℚ) * ((w : ℚ) / h) ≤ w := by
          rw [← mul_div_assoc, div_le_iff hhq]
          have h150 : (150 : ℚ) ≤ h := by exact_mod_cast hh150.le
          nlinarith
        have ht0 : (0 : ℚ) < 150 * ((w : ℚ) / h) := by positivity
        have hra1 := one_le_round_aspect (150 * ((w : ℚ) / h))
          fun n => |(w : ℚ) / h - (n : ℚ) / 150|
        have hra122 := round_aspect_le (150 * ((w : ℚ) / h))
          (fun n => |(w : ℚ) / h - (n : ℚ) / 150|) 122 (by norm_num) (by push_cast; linarith)
        have hraw := round_aspect_le (150 * ((w : ℚ) / h))
          (fun n => |(w : ℚ) / h - (n : ℚ) / 150|) w (by exact_mod_cast hw)
          (by push_cast; linarith)
        have hclose := round_aspect_close (150 * ((w : ℚ) / h))
          (fun n => |(w : ℚ) / h - (n : ℚ) / 150|) ht0
        set ra := round_aspect (150 * ((w : ℚ) / h))
          fun n => |(w : ℚ) / h - (n : ℚ) / 150| with hradef
        have hcast : ((ra.toNat : ℕ) : ℤ) = ra := Int.toNat_of_nonneg (by linarith)
        have g1 : ra.toNat ≤ 122 := by
          have : ((ra.toNat : ℕ) : ℤ) ≤ 122 := by rw [hcast]; exact hra122
          exact_mod_cast this
        have g3 : ra.toNat ≤ w := by
          have : ((ra.toNat : ℕ) : ℤ) ≤ (w : ℤ) := by rw [hcast]; exact hraw
          exact_mod_cast this
        refine ⟨g1, trivial, g3, hh150.le, ?_⟩
        have hth : (150 : ℚ) * ((w : ℚ) / h) * h = 150 * w := by
          field_simp
        have habs : |((ra : ℤ) : ℚ) * h - 150 * w| ≤ (h : ℚ) := by
          calc |((ra : ℤ) : ℚ) * h - 150 * w|
              = |(((ra : ℤ) : ℚ) - 150 * ((w : ℚ) / h)) * h| := by
                rw [sub_mul, hth]
            _ = |((ra : ℤ) : ℚ) - 150 * ((w : ℚ) / h)| * |(h : ℚ)| := abs_mul _ _
            _ = |((ra : ℤ) : ℚ) - 150 * ((w : ℚ) / h)| * h := by
                rw [abs_of_pos hhq]
            _ ≤ 1 * h := mul_le_mul_of_nonneg_right hclose hhq.le
            _ = h := one_mul _
        rw [hcast]
        have hzz : |ra * (h : ℤ) - 150 * w| ≤ (h : ℤ) := by exact_mod_cast habs
        exact le_trans hzz (le_max_right _ _)
      · -- height-constrained branch: output width is exactly 122
        rename_i hrat
        rw [Option.some_inj, Prod.mk.injEq] at hts
        obtain ⟨hw2, hh2⟩ := hts
        subst hw2
        subst hh2
        push_cast at hrat ⊢
        rw [ge_iff_le, not_le, div_lt_div_iff (by norm_num : (0 : ℚ) < 150) hhq] at hrat
        -- hrat : 122 * h < w * 150
        have hteq : (122 : ℚ) / ((w : ℚ) / h) = 122 * h / w := div_div_eq_mul_div _ _ _
        have h122w : 122 < w := by
          by_contra hcon
          push_neg at hcon
          have hcq : (w : ℚ) ≤ 122 := by exact_mod_cast hcon
          have hhle : h ≤ 150 := by
            have : (h : ℚ) < 150 := by nlinarith
            have := this.le
            exact_mod_cast Nat.le_of_lt_succ (by exact_mod_cast (by linarith : (h : ℚ) < 151))
          exact hnofit ⟨hcon, hhle⟩
        have ht150 : (122 : ℚ) / ((w : ℚ) / h) ≤ 150 := by
          rw [hteq, div_le_iff hwq]
          linarith
        have hth2 : (122 : ℚ) / ((w : ℚ) / h) ≤ h := by
          rw [hteq, div_le_iff hwq]
          have : (122 : ℚ) ≤ w := by exact_mod_cast h122w.le
          nlinarith
        have ht0 : (0 : ℚ) < 122 / ((w : ℚ) / h) := by positivity
        have hra1 := one_le_round_aspect ((122 : ℚ) / ((w : ℚ) / h))
          fun n => if n = 0 then 0 else |(w : ℚ) / h - (122 : ℚ) / (n : ℚ)|
        have hra150 := round_aspect_le ((122 : ℚ) / ((w : ℚ) / h))
          (fun n => if n = 0 then 0 else |(w : ℚ) / h - (122 : ℚ) / (n : ℚ)|) 150
          (by norm_num) (by push_cast; linarith)
        have hrah := round_aspect_le ((122 : ℚ) / ((w : ℚ) / h))
          (fun n => if n = 0 then 0 else |(w : ℚ) / h - (122 : ℚ) / (n : ℚ)|) h
          (by exact_mod_cast hh) (by push_cast; linarith)
        have hclose := round_aspect_close ((122 : ℚ) / ((w : ℚ) / h))
          (fun n => if n = 0 then 0 else |(w : ℚ) / h - (122 : ℚ) / (n : ℚ)|) ht0
        set ra := round_aspect ((122 : ℚ) / ((w : ℚ) / h))
          fun n => if n = 0 then 0 else |(w : ℚ) / h - (122 : ℚ) / (n : ℚ)| with hradef
        have hcast : ((ra.toNat : ℕ) : ℤ) = ra := Int.toNat_of_nonneg (by linarith)
        have g2 : ra.toNat ≤ 150 := by
          have : ((ra.toNat : ℕ) : ℤ) ≤ 150 := by rw [hcast]; exact hra150
          exact_mod_cast this
        have g4 : ra.toNat ≤ h := by
          have : ((ra.toNat : ℕ) : ℤ) ≤ (h : ℤ) := by rw [hcast]; exact hrah
          exact_mod_cast this
        refine ⟨trivial, g2, h122w.le, g4, ?_⟩
        have htw : (122 : ℚ) / ((w : ℚ) / h) * w = 122 * h := by
          rw [hteq]
          field_simp
        have habs : |(122 : ℚ) * h - ((ra : ℤ) : ℚ) * w| ≤ (w : ℚ) := by
          calc |(122 : ℚ) * h - ((ra : ℤ) : ℚ) * w|
              = |((122 : ℚ) / ((w : ℚ) / h) - ((ra : ℤ) : ℚ)) * w| := by
                rw [sub_mul, htw]
            _ = |(122 : ℚ) / ((w : ℚ) / h) - ((ra : ℤ) : ℚ)| * |(w : ℚ)| := abs_mul _ _
            _ = |((ra : ℤ) : ℚ) - 122 / ((w : ℚ) / h)| * w := by
                rw [abs_sub_comm, abs_of_pos hwq]
            _ ≤ 1 * w := mul_le_mul_of_nonneg_right hclose hwq.le
            _ = w := one_mul _
        rw [hcast]
        have hzz : |(122 : ℤ) * h - ra * w| ≤ (w : ℤ) := by exact_mod_cast habs
        exact le_trans hzz (le_max_left _ _)

end ResizeLemmas

/-- Characterization of a successful thumbnail write in `mainRun`: it comes
from the extracted image via mode normalization and `thumbnailSize`. -/
theorem mainRun_saved (inp : MainInput) (out : PILImage)
    (hs : (mainRun inp).saved = some out) :
    ∃ img, (extract_cover_from_epub inp.zip).result = some img
      ∧ ∃ w h, thumbnailSize img.width img.height 122 150 = some (w, h)
        ∧ out = ⟨(convertIfNeeded img).mode, w, h⟩ := by
  unfold mainRun at hs
  split at hs
  · simp at hs
  split at hs
  · simp at hs
  split at hs
  · simp at hs
  unfold mainAfterChecks at hs
  cases hres : (extract_cover_from_epub inp.zip).result with
  | none => rw [hres] at hs; simp at hs
  | some img =>
    rw [hres] at hs
    dsimp only at hs
    refine ⟨img, rfl, ?_⟩
    have hcw : (convertIfNeeded img).width = img.width := by
      unfold convertIfNeeded; split <;> rfl
    have hch : (convertIfNeeded img).height = img.height := by
      unfold convertIfNeeded; split <;> rfl
    rw [hcw, hch] at hs
    split at hs
    · simp at hs
    cases hts : thumbnailSize img.width img.height 122 150 with
    | none => rw [hts] at hs; simp at hs
    | some wh =>
      rw [hts] at hs
      obtain ⟨w, h⟩ := wh
      refine ⟨w, h, rfl, ?_⟩
      simp only [Option.some_inj] at hs
      exact hs.symm

/-- Claim C7: the written thumbnail fits the 122×150 box, never upscales
past the source resolution, and preserves the source aspect ratio up to a
one-pixel rounding tolerance (cross-multiplied error at most the larger
source dimension). -/
theorem claim7_resize_invariant (inp : MainInput) (img out : PILImage)
    (hres : (extract_cover_from_epub inp.zip).result = some img)
    (hw : 0 < img.width) (hh : 0 < img.height)
    (hs : (mainRun inp).saved = some out) :
    out.width ≤ 122 ∧ out.height ≤ 150
      ∧ out.width ≤ img.width ∧ out.height ≤ img.height
      ∧ |(out.width : ℤ) * img.height - (out.height : ℤ) * img.width|
          ≤ (max img.width img.height : ℤ) := by
  obtain ⟨img', hres', w, h, hts, hout⟩ := mainRun_saved inp out hs
  rw [hres] at hres'
  rw [Option.some_inj] at hres'
  subst hres'
  subst hout
  exact thumbnailSize_spec _ _ _ _ hw hh hts

/-- Claim C7 witness: a 100×120 cover already fits the box and is written
unchanged. -/
theorem claim7_witness :
    (mainRun
        { argc := 2, fileExists := true, fileName := "novel.epub",
          zip := .archive
            [("META-INF/container.xml", ⟨.doc [some "OEBPS/content.opf"] [], none⟩),
             ("OEBPS/content.opf",
               ⟨.doc [] [.meta ⟨some "cover", some "c1"⟩,
                         .item ⟨some "c1", some "cover.jpg", some "image/jpeg", none⟩], none⟩),
             ("OEBPS/cover.jpg", ⟨.parseError, some ⟨"RGB", 100, 120⟩⟩)],
          thumbExists := false }).saved = some ⟨"RGB", 100, 120⟩
    ∧ (100 ≤ 122 ∧ 120 ≤ 150 ∧ 100 ≤ 100 ∧ 120 ≤ 120
        ∧ |(100 : ℤ) * 120 - (120 : ℤ) * 100| ≤ ((max 100 120 : ℕ) : ℤ)) :=
  ⟨by decide,
   claim7_resize_invariant
     { argc := 2, fileExists := true, fileName := "novel.epub",
       zip := .archive
         [("META-INF/container.xml", ⟨.doc [some "OEBPS/content.opf"] [], none⟩),
          ("OEBPS/content.opf",
            ⟨.doc [] [.meta ⟨some "cover", some "c1"⟩,
                      .item ⟨some "c1", some "cover.jpg", some "image/jpeg", none⟩], none⟩),
          ("OEBPS/cover.jpg", ⟨.parseError, some ⟨"RGB", 100, 120⟩⟩)],
       thumbExists := false }
     ⟨"RGB", 100, 120⟩ ⟨"RGB", 100, 120⟩
     (by decide) (by decide) (by decide) (by decide)⟩

/-- Claim C8: every written thumbnail has mode RGB or RGBA, and a source
image whose mode is neither is converted to RGB before saving. -/
theorem claim8_color_mode (inp : MainInput) (img out : PILImage)
    (hres : (extract_cover_from_epub inp.zip).result = some img)
    (hs : (mainRun inp).saved = some out) :
    (out.mode = "RGB" ∨ out.mode = "RGBA")
      ∧ (img.mode ≠ "RGB" → img.mode ≠ "RGBA" → out.mode = "RGB") := by
  obtain ⟨img', hres', w, h, hts, hout⟩ := mainRun_saved inp out hs
  rw [hres] at hres'
  rw [Option.some_inj] at hres'
  subst hres'
  subst hout
  unfold convertIfNeeded
  by_cases hm : img.mode = "RGB" ∨ img.mode = "RGBA"
  · rw [if_pos hm]
    refine ⟨hm, fun h1 h2 => ?_⟩
    rcases hm with hra | hba
    · exact absurd hra h1
    · exact absurd hba h2
  · rw [if_neg hm]
    exact ⟨Or.inl rfl, fun _ _ => rfl⟩

/-- Claim C8 witness: a CMYK source is saved as RGB. -/
theorem claim8_witness :
    (mainRun
        { argc := 2, fileExists := true, fileName := "novel.epub",
          zip := .archive
            [("META-INF/container.xml", ⟨.doc [some "OEBPS/content.opf"] [], none⟩),
             ("OEBPS/content.opf",
               ⟨.doc [] [.meta ⟨some "cover", some "c1"⟩,
                         .item ⟨some "c1", some "cover.jpg", some "image/jpeg", none⟩], none⟩),
             ("OEBPS/cover.jpg", ⟨.parseError, some ⟨"CMYK", 100, 120⟩⟩)],
          thumbExists := false }).saved = some ⟨"RGB", 100, 120⟩
    ∧ (("RGB" = "RGB" ∨ "RGB" = "RGBA")
        ∧ ("CMYK" ≠ "RGB" → "CMYK" ≠ "RGBA" → "RGB" = "RGB")) :=
  ⟨by decide,
   claim8_color_mode
     { argc := 2, fileExists := true, fileName := "novel.epub",
       zip := .archive
         [("META-INF/container.xml", ⟨.doc [some "OEBPS/content.opf"] [], none⟩),
          ("OEBPS/content.opf",
            ⟨.doc [] [.meta ⟨some "cover", some "c1"⟩,
                      .item ⟨some "c1", some "cover.jpg", some "image/jpeg", none⟩], none⟩),
          ("OEBPS/cover.jpg", ⟨.parseError, some ⟨"CMYK", 100, 120⟩⟩)],
       thumbExists := false }
     ⟨"CMYK", 100, 120⟩ ⟨"RGB", 100, 120⟩
     (by decide) (by decide)⟩

end EpubThumb

